import Mathlib

/-!
Verification of the delivery-agent scheduler of `Lab_1/Source/Lab_1/SimpleAIController.cpp`
(`ASimpleAIController::Tick`), shallowly embedded in Lean 4.

Modelling conventions:
* `float` values (distances, deadlines, speeds) are modelled as exact rationals `ℚ`.
* The engine's world accessors (`GetPizzaOrders`, `GetHouseLocations`, `GetHouseTimeLeft`,
  `WaitsHousePizzaDelivery`, `GetDistanceToDestination`, `GetCharacterMaxSpeed`,
  `GetPizzaAmount`) and the action results (`TryGrabPizza`, `TryDeliverPizza`) are a
  per-tick snapshot, collected in a `World` record.  `GetPizzaOrders` is called a second
  time after a successful delivery (the delivered order has been removed externally by
  then), so the snapshot carries that second list separately as `GetPizzaOrdersPost`.
* The `TArray` indexings `HouseLocations[h]` and the `GetHouseTimeLeft(h)` table read are
  fallible: they are modelled as `Option`-returning lookups, `none` standing for an
  out-of-bounds access.
* `CurrentDestination` is an `FVector` member that the constructor leaves unassigned and
  that no code path ever clears; it is modelled as `Option FVector`, `none` meaning
  "never assigned so far".
* The side-effecting calls `SetNewMoveDestination`, `TryGrabPizza`, `TryDeliverPizza`
  are recorded in an action trace returned by the tick.
-/

/-- A pending pizza order, mirroring `FPizzaOrder`: an order id and a house key. -/
structure Order where
  OrderNumber : Int
  HouseNumber : Nat
deriving DecidableEq

/-- A spatial point, mirroring `FVector` (components as exact rationals). -/
structure FVector where
  X : ℚ
  Y : ℚ
  Z : ℚ
deriving DecidableEq

/-- Per-tick snapshot of the engine facade: world queries and action outcomes. -/
structure World where
  GetPizzaOrders : List Order
  GetPizzaOrdersPost : List Order
  GetHouseLocations : Nat → Option FVector
  GetHouseTimeLeft : Nat → Option ℚ
  WaitsHousePizzaDelivery : Nat → Bool
  GetDistanceToDestination : FVector → ℚ
  GetCharacterMaxSpeed : ℚ
  GetPizzaAmount : Nat
  TryGrabPizza : Bool
  TryDeliverPizza : Int → Bool

/-- The controller's mutable state: the fields of `ASimpleAIController`. -/
structure AgentState where
  bDeliveringOrder : Bool
  CurrentOrderNumber : Int
  terribleStatus : Int
  CurrentDestination : Option FVector
deriving DecidableEq

/-- The constructor `ASimpleAIController::ASimpleAIController()`:
`bDeliveringOrder = false`, `CurrentOrderNumber = -1`, `terribleStatus = 0`;
`CurrentDestination` is left unassigned. -/
def initState : AgentState :=
  { bDeliveringOrder := false
    CurrentOrderNumber := -1
    terribleStatus := 0
    CurrentDestination := none }

/-- One Action Facade call issued during a tick. -/
inductive FacadeCall where
  | moveToward (p : FVector)
  | tryPickup
  | tryDeliver (orderNumber : Int)
deriving DecidableEq

/-- `GetDistanceToDestination(HouseLocations[h])`: house-table lookup followed by the
distance query; `none` when the lookup is out of bounds. -/
def distToHouse (w : World) (h : Nat) : Option ℚ :=
  match w.GetHouseLocations h with
  | some p => some (w.GetDistanceToDestination p)
  | none => none

/-- Runs a fallible per-order lookup over the whole order list, as the `for` loops in
`Tick` do; the whole scan fails if any single lookup does. -/
def lookupAll {α β : Type} (f : α → Option β) : List α → Option (List β)
  | [] => some []
  | a :: rest =>
    match f a, lookupAll f rest with
    | some v, some vs => some (v :: vs)
    | _, _ => none

/-- The body of the two scan loops of `Tick`: walk the values at indices
`i, i+1, ...`, keeping the best `(index, value)` pair and updating only on a strict
decrease (`currentDistance < closestDistance` / `currentTime < burnestTime`). -/
def loopMin : List ℚ → Nat → Nat × ℚ → Nat × ℚ
  | [], _, best => best
  | v :: rest, i, best =>
    if v < best.2 then loopMin rest (i + 1) (i, v) else loopMin rest (i + 1) best

/-- The full scan as written in `Tick`: the best pair is seeded with index 0 and the
value at index 0, then the loop runs over all indices from 0. -/
def scanMin : List ℚ → Nat × ℚ
  | [] => (0, 0)
  | v :: rest => loopMin (v :: rest) 0 (0, v)

/-- The job-selection block of the Idle branch of `Tick` (lines 52-79): the
closest-order scan, the most-urgent scan, and the escalation test
`burnestTime - dist(terribleOrder)/maxSpeed < 5 && terribleStatus != 2`.
Returns the chosen order together with the updated `terribleStatus`. -/
def idleSelect (w : World) (status : Int) : Option (Order × Int) :=
  match lookupAll (fun o => distToHouse w o.HouseNumber) w.GetPizzaOrders,
        lookupAll (fun o => w.GetHouseTimeLeft o.HouseNumber) w.GetPizzaOrders with
  | some dists, some times =>
    match w.GetPizzaOrders.get? (scanMin dists).1, w.GetPizzaOrders.get? (scanMin times).1,
          dists.get? (scanMin times).1 with
    | some closestOrd, some terribleOrd, some du =>
      if (scanMin times).2 - du / w.GetCharacterMaxSpeed < 5 ∧ status ≠ 2 then
        some (terribleOrd, 1)
      else
        some (closestOrd, status)
    | _, _, _ => none
  | _, _ => none

/-- The post-delivery re-scan loop of `Tick` (lines 31-37): look for a still-pending
order whose house both awaits delivery and lies at exactly the measured `Distance`.
The `&&` short-circuits, so the house lookup only happens for awaiting houses. -/
def anyCoLocated (w : World) (Distance : ℚ) : List Order → Option Bool
  | [] => some false
  | o :: rest =>
    if w.WaitsHousePizzaDelivery o.HouseNumber then
      match distToHouse w o.HouseNumber with
      | some d => if Distance = d then some true else anyCoLocated w Distance rest
      | none => none
    else anyCoLocated w Distance rest

/-- The Idle branch of `Tick` (lines 45-95): empty-order early return, job selection,
cargo gating (`GetPizzaAmount == 0` forces a `TryGrabPizza`, aborting the tick when it
fails), and the commit that enters the delivering state. -/
def idleTick (w : World) (s : AgentState) : Option (AgentState × List FacadeCall) :=
  if w.GetPizzaOrders.isEmpty then some (s, [])
  else
    match idleSelect w s.terribleStatus with
    | none => none
    | some (order, status) =>
      if w.GetPizzaAmount = 0 ∧ w.TryGrabPizza = false then
        some ({ s with terribleStatus := status }, [FacadeCall.tryPickup])
      else
        match w.GetHouseLocations order.HouseNumber with
        | none => none
        | some hl =>
          some ({ bDeliveringOrder := true
                  CurrentOrderNumber := order.OrderNumber
                  terribleStatus := status
                  CurrentDestination := some hl },
                (if w.GetPizzaAmount = 0 then [FacadeCall.tryPickup] else [])
                  ++ [FacadeCall.moveToward hl])

/-- The delivering branch of `Tick` (lines 15-43): far-away move, the
`terribleStatus == 1 && Distance < 300` promotion, the delivery attempt, the
success-branch clearing plus co-location re-scan, and the failure-branch retry. -/
def enRouteTick (w : World) (s : AgentState) : Option (AgentState × List FacadeCall) :=
  match s.CurrentDestination with
  | none => none
  | some dest =>
    if 300 < w.GetDistanceToDestination dest then
      some (s, [FacadeCall.moveToward dest])
    else
      if w.TryDeliverPizza s.CurrentOrderNumber then
        match anyCoLocated w (w.GetDistanceToDestination dest) w.GetPizzaOrdersPost with
        | none => none
        | some found =>
          some ({ bDeliveringOrder := false
                  CurrentOrderNumber := -1
                  terribleStatus := if found then 2 else 0
                  CurrentDestination := s.CurrentDestination },
                [FacadeCall.tryDeliver s.CurrentOrderNumber])
      else
        some ({ s with terribleStatus :=
                  if s.terribleStatus = 1 ∧ w.GetDistanceToDestination dest < 300 then 2
                  else s.terribleStatus },
              [FacadeCall.tryDeliver s.CurrentOrderNumber, FacadeCall.moveToward dest])

/-- `ASimpleAIController::Tick`: dispatch on `bDeliveringOrder`. -/
def Tick (w : World) (s : AgentState) : Option (AgentState × List FacadeCall) :=
  if s.bDeliveringOrder then enRouteTick w s else idleTick w s

/-! ## Basic lemmas about the scan helpers -/

theorem lookupAll_length {α β : Type} (f : α → Option β) :
    ∀ (l : List α) (l' : List β), lookupAll f l = some l' → l'.length = l.length := by
  intro l
  induction l with
  | nil => intro l' h; simp [lookupAll] at h; subst h; rfl
  | cons a rest ih =>
    intro l' h
    unfold lookupAll at h
    cases hfa : f a with
    | none => rw [hfa] at h; simp at h
    | some v =>
      cases hrest : lookupAll f rest with
      | none => rw [hfa, hrest] at h; simp at h
      | some vs =>
        rw [hfa, hrest] at h
        simp at h
        subst h
        simp [ih vs hrest]

theorem lookupAll_isSome {α β : Type} (f : α → Option β) :
    ∀ (l : List α), (∀ a ∈ l, (f a).isSome) → (lookupAll f l).isSome := by
  intro l
  induction l with
  | nil => intro _; simp [lookupAll]
  | cons a rest ih =>
    intro hall
    have ha : (f a).isSome := hall a (List.mem_cons_self a rest)
    have hr : (lookupAll f rest).isSome := ih (fun x hx => hall x (List.mem_cons_of_mem a hx))
    unfold lookupAll
    cases hfa : f a with
    | none => rw [hfa] at ha; simp at ha
    | some v =>
      cases hrest : lookupAll f rest with
      | none => rw [hrest] at hr; simp at hr
      | some vs => simp

theorem lookupAll_get {α β : Type} (f : α → Option β) :
    ∀ (l : List α) (l' : List β), lookupAll f l = some l' →
      ∀ (i : Nat) (b : β), l'.get? i = some b → ∃ a, l.get? i = some a ∧ f a = some b := by
  intro l
  induction l with
  | nil =>
    intro l' h i b hb
    simp [lookupAll] at h
    subst h
    simp at hb
  | cons a rest ih =>
    intro l' h i b hb
    unfold lookupAll at h
    cases hfa : f a with
    | none => rw [hfa] at h; simp at h
    | some v =>
      cases hrest : lookupAll f rest with
      | none => rw [hfa, hrest] at h; simp at h
      | some vs =>
        rw [hfa, hrest] at h
        simp at h
        subst h
        cases i with
        | zero =>
          rw [List.get?_cons_zero] at hb
          injection hb with hb
          subst hb
          exact ⟨a, List.get?_cons_zero, hfa⟩
        | succ j =>
          rw [List.get?_cons_succ] at hb
          obtain ⟨x, hx, hfx⟩ := ih vs hrest j b hb
          refine ⟨x, ?_, hfx⟩
          rw [List.get?_cons_succ]
          exact hx

theorem loopMin_spec : ∀ (vals : List ℚ) (i bi : Nat) (bv : ℚ),
    (loopMin vals i (bi, bv) = (bi, bv) ∧ ∀ j v, vals.get? j = some v → bv ≤ v)
  ∨ (∃ k v, vals.get? k = some v ∧ loopMin vals i (bi, bv) = (i + k, v) ∧ v < bv
      ∧ (∀ j u, j < k → vals.get? j = some u → v < u)
      ∧ (∀ j u, vals.get? j = some u → v ≤ u)) := by
  intro vals
  induction vals with
  | nil =>
    intro i bi bv
    left
    constructor
    · rfl
    · intro j v h; simp at h
  | cons v rest ih =>
    intro i bi bv
    by_cases hv : v < bv
    · rcases ih (i + 1) i v with ⟨heq, hall⟩ | ⟨k', v', hget, heq, hlt, hbefore, hmin⟩
      · right
        refine ⟨0, v, List.get?_cons_zero, ?_, hv, ?_, ?_⟩
        · simp [loopMin, if_pos hv, heq]
        · intro j u hj _; omega
        · intro j u hj
          cases j with
          | zero =>
            rw [List.get?_cons_zero] at hj
            injection hj with hj
            subst hj
            exact le_refl v
          | succ j' =>
            rw [List.get?_cons_succ] at hj
            exact hall j' u hj
      · right
        refine ⟨k' + 1, v', ?_, ?_, lt_trans hlt hv, ?_, ?_⟩
        · rw [List.get?_cons_succ]; exact hget
        · have hidx : i + (k' + 1) = i + 1 + k' := by omega
          rw [hidx]
          simpa [loopMin, if_pos hv] using heq
        · intro j u hj hju
          cases j with
          | zero =>
            rw [List.get?_cons_zero] at hju
            injection hju with hju
            subst hju
            exact hlt
          | succ j' =>
            rw [List.get?_cons_succ] at hju
            exact hbefore j' u (by omega) hju
        · intro j u hj
          cases j with
          | zero =>
            rw [List.get?_cons_zero] at hj
            injection hj with hj
            subst hj
            exact le_of_lt hlt
          | succ j' =>
            rw [List.get?_cons_succ] at hj
            exact hmin j' u hj
    · have hle : bv ≤ v := le_of_not_lt hv
      rcases ih (i + 1) bi bv with ⟨heq, hall⟩ | ⟨k', v', hget, heq, hlt, hbefore, hmin⟩
      · left
        constructor
        · simpa [loopMin, if_neg hv] using heq
        · intro j u hj
          cases j with
          | zero =>
            rw [List.get?_cons_zero] at hj
            injection hj with hj
            subst hj
            exact hle
          | succ j' =>
            rw [List.get?_cons_succ] at hj
            exact hall j' u hj
      · right
        refine ⟨k' + 1, v', ?_, ?_, hlt, ?_, ?_⟩
        · rw [List.get?_cons_succ]; exact hget
        · have hidx : i + (k' + 1) = i + 1 + k' := by omega
          rw [hidx]
          simpa [loopMin, if_neg hv] using heq
        · intro j u hj hju
          cases j with
          | zero =>
            rw [List.get?_cons_zero] at hju
            injection hju with hju
            subst hju
            exact lt_of_lt_of_le hlt hle
          | succ j' =>
            rw [List.get?_cons_succ] at hju
            exact hbefore j' u (by omega) hju
        · intro j u hj
          cases j with
          | zero =>
            rw [List.get?_cons_zero] at hj
            injection hj with hj
            subst hj
            exact le_of_lt (lt_of_lt_of_le hlt hle)
          | succ j' =>
            rw [List.get?_cons_succ] at hj
            exact hmin j' u hj

/-- `scanMin` on a non-empty list returns the value stored at the returned index, that
value is a minimum of the list, and every entry strictly before the returned index is
strictly larger: the scan selects the first occurrence of the minimum. -/
theorem scanMin_spec (v0 : ℚ) (vs : List ℚ) :
    (v0 :: vs).get? (scanMin (v0 :: vs)).1 = some (scanMin (v0 :: vs)).2
  ∧ (∀ j u, (v0 :: vs).get? j = some u → (scanMin (v0 :: vs)).2 ≤ u)
  ∧ (∀ j u, j < (scanMin (v0 :: vs)).1 → (v0 :: vs).get? j = some u →
      (scanMin (v0 :: vs)).2 < u) := by
  have hdef : scanMin (v0 :: vs) = loopMin (v0 :: vs) 0 (0, v0) := rfl
  rcases loopMin_spec (v0 :: vs) 0 0 v0 with ⟨heq, hall⟩ | ⟨k, v, hget, heq, _, hbefore, hmin⟩
  · rw [hdef, heq]
    refine ⟨List.get?_cons_zero, ?_, ?_⟩
    · intro j u hj
      exact hall j u hj
    · intro j u hj _
      simp at hj
  · rw [hdef, heq]
    simp only [Nat.zero_add]
    exact ⟨hget, fun j u hj => hmin j u hj, fun j u hj hju => hbefore j u hj hju⟩

theorem anyCoLocated_isSome (w : World) (D : ℚ) :
    ∀ (os : List Order),
      (∀ o ∈ os, w.WaitsHousePizzaDelivery o.HouseNumber = true →
        (w.GetHouseLocations o.HouseNumber).isSome) →
      (anyCoLocated w D os).isSome := by
  intro os
  induction os with
  | nil => intro _; simp [anyCoLocated]
  | cons o rest ih =>
    intro hall
    have hr := ih (fun x hx => hall x (List.mem_cons_of_mem o hx))
    unfold anyCoLocated
    by_cases hw : w.WaitsHousePizzaDelivery o.HouseNumber
    · rw [if_pos hw]
      have hloc := hall o (List.mem_cons_self o rest) hw
      cases hhl : w.GetHouseLocations o.HouseNumber with
      | none => rw [hhl] at hloc; simp at hloc
      | some p =>
        simp only [distToHouse, hhl]
        by_cases hD : D = w.GetDistanceToDestination p
        · rw [if_pos hD]; simp
        · rw [if_neg hD]; exact hr
    · rw [if_neg hw]; exact hr

theorem anyCoLocated_true_iff (w : World) (D : ℚ) :
    ∀ (os : List Order) (b : Bool), anyCoLocated w D os = some b →
      (b = true ↔ ∃ o ∈ os, w.WaitsHousePizzaDelivery o.HouseNumber = true ∧
        distToHouse w o.HouseNumber = some D) := by
  intro os
  induction os with
  | nil =>
    intro b h
    simp [anyCoLocated] at h
    subst h
    simp
  | cons o rest ih =>
    intro b h
    unfold anyCoLocated at h
    by_cases hw : w.WaitsHousePizzaDelivery o.HouseNumber
    · rw [if_pos hw] at h
      cases hhl : w.GetHouseLocations o.HouseNumber with
      | none =>
        simp only [distToHouse, hhl] at h
        exact absurd h (by simp)
      | some p =>
        simp only [distToHouse, hhl] at h
        by_cases hD : D = w.GetDistanceToDestination p
        · rw [if_pos hD] at h
          injection h with h
          subst h
          simp only [true_iff]
          exact ⟨o, List.mem_cons_self o rest, hw, by simp [distToHouse, hhl, hD]⟩
        · rw [if_neg hD] at h
          rw [ih b h]
          constructor
          · rintro ⟨x, hx, hwx, hdx⟩
            exact ⟨x, List.mem_cons_of_mem o hx, hwx, hdx⟩
          · rintro ⟨x, hx, hwx, hdx⟩
            rcases List.mem_cons.mp hx with hx0 | hx'
            · subst hx0
              simp [distToHouse, hhl] at hdx
              exact absurd hdx.symm hD
            · exact ⟨x, hx', hwx, hdx⟩
    · rw [if_neg hw] at h
      rw [ih b h]
      constructor
      · rintro ⟨x, hx, hwx, hdx⟩
        exact ⟨x, List.mem_cons_of_mem o hx, hwx, hdx⟩
      · rintro ⟨x, hx, hwx, hdx⟩
        rcases List.mem_cons.mp hx with hx0 | hx'
        · subst hx0
          exact absurd hwx (by simpa using hw)
        · exact ⟨x, hx', hwx, hdx⟩

/-- Whatever `idleSelect` picks is one of the pending orders. -/
theorem idleSelect_mem (w : World) (st : Int) (o : Order) (st' : Int)
    (h : idleSelect w st = some (o, st')) : o ∈ w.GetPizzaOrders := by
  unfold idleSelect at h
  split at h
  · split at h
    · split at h
      · injection h with h
        have hp := congrArg Prod.fst h
        simp at hp
        subst hp
        apply List.get?_mem
        assumption
      · injection h with h
        have hp := congrArg Prod.fst h
        simp at hp
        subst hp
        apply List.get?_mem
        assumption
    · exact absurd h (by simp)
  · exact absurd h (by simp)

/-- Shape inversion for a successful `Tick`: the post-state is the pre-state, the
pre-state with only `terribleStatus` changed, a freshly committed delivering state for
one of the pending orders, or the cleared post-delivery state (which keeps
`CurrentDestination`). -/
theorem Tick_shapes {w : World} {s s' : AgentState} {acts : List FacadeCall}
    (h : Tick w s = some (s', acts)) :
    s' = s
  ∨ (∃ st, s' = { s with terribleStatus := st })
  ∨ (∃ o st hl, o ∈ w.GetPizzaOrders ∧
       s' = { bDeliveringOrder := true, CurrentOrderNumber := o.OrderNumber,
              terribleStatus := st, CurrentDestination := some hl })
  ∨ (∃ st, s' = { bDeliveringOrder := false, CurrentOrderNumber := -1,
                   terribleStatus := st, CurrentDestination := s.CurrentDestination }) := by
  unfold Tick at h
  split at h
  · -- EnRoute branch
    unfold enRouteTick at h
    split at h
    · exact absurd h (by simp)
    · split at h
      · left
        injection h with h
        exact (congrArg Prod.fst h).symm
      · split at h
        · split at h
          · exact absurd h (by simp)
          · right; right; right
            injection h with h
            have hp := congrArg Prod.fst h
            simp at hp
            exact ⟨_, hp.symm⟩
        · right; left
          injection h with h
          have hp := congrArg Prod.fst h
          simp at hp
          exact ⟨_, hp.symm⟩
  · -- Idle branch
    unfold idleTick at h
    split at h
    · left
      injection h with h
      exact (congrArg Prod.fst h).symm
    · split at h
      · exact absurd h (by simp)
      · rename_i order status hsel
        split at h
        · right; left
          injection h with h
          have hp := congrArg Prod.fst h
          simp at hp
          exact ⟨_, hp.symm⟩
        · split at h
          · exact absurd h (by simp)
          · right; right; left
            injection h with h
            have hp := congrArg Prod.fst h
            simp at hp
            exact ⟨order, status, _, idleSelect_mem w s.terribleStatus order status hsel, hp.symm⟩

/-- Reachability of controller states from the constructor state, under a constraint
`P` on the world snapshots the driver can supply. -/
inductive ReachableW (P : World → Prop) : AgentState → Prop
  | init : ReachableW P initState
  | step {w : World} {s s' : AgentState} {acts : List FacadeCall} :
      ReachableW P s → P w → Tick w s = some (s', acts) → ReachableW P s'

/-- World snapshots whose pending orders carry non-negative order ids (true of the
engine, which hands out consecutive order numbers starting at 0). -/
def OrdersNonneg (w : World) : Prop := ∀ o ∈ w.GetPizzaOrders, 0 ≤ o.OrderNumber

theorem get?_isSome_of_lt {α : Type} (l : List α) (n : Nat) (h : n < l.length) :
    (l.get? n).isSome = true := by
  cases hg : l.get? n with
  | none => exact absurd (List.get?_eq_none.mp hg) (Nat.not_le_of_lt h)
  | some v => rfl

theorem get?_lt_length {α : Type} {l : List α} {n : Nat} {a : α} (h : l.get? n = some a) :
    n < l.length := by
  by_contra hc
  rw [List.get?_eq_none.mpr (Nat.le_of_not_lt hc)] at h
  exact Option.noConfusion h

/-! ## Concrete worlds used by witnesses and counterexamples -/

/-- A one-house location table: house `0` sits at `(x, 0, 0)`. -/
def houseAt (x : ℚ) : Nat → Option FVector :=
  fun h => if h = 0 then some ⟨x, 0, 0⟩ else none

/-- A one-house deadline table: house `0` has `t` time units left. -/
def deadlineAt (t : ℚ) : Nat → Option ℚ :=
  fun h => if h = 0 then some t else none

/-- One pending order for a house 100 units away with a burning 1-unit deadline;
the agent holds no cargo and the pickup attempt fails. -/
def wFlagAbort : World :=
  { GetPizzaOrders := [⟨7, 0⟩]
    GetPizzaOrdersPost := []
    GetHouseLocations := houseAt 100
    GetHouseTimeLeft := deadlineAt 1
    WaitsHousePizzaDelivery := fun _ => false
    GetDistanceToDestination := fun p => p.X
    GetCharacterMaxSpeed := 1
    GetPizzaAmount := 0
    TryGrabPizza := false
    TryDeliverPizza := fun _ => false }

/-- Same pending order but with a relaxed 1000-unit deadline and cargo in hand. -/
def wRelaxed : World :=
  { wFlagAbort with
    GetHouseTimeLeft := deadlineAt 1000
    GetPizzaAmount := 1 }

/-- One burning order 100 units away, cargo in hand, delivery attempts failing. -/
def wNear : World :=
  { wFlagAbort with GetPizzaAmount := 1 }

/-- One burning order at exactly 300 units, cargo in hand, delivery attempts failing. -/
def wBoundary : World :=
  { wFlagAbort with
    GetHouseLocations := houseAt 300
    GetPizzaAmount := 1 }

/-- One relaxed order 50 units away, cargo in hand, delivery succeeding, and no other
pending order left afterwards. -/
def wDeliver : World :=
  { GetPizzaOrders := [⟨7, 0⟩]
    GetPizzaOrdersPost := []
    GetHouseLocations := houseAt 50
    GetHouseTimeLeft := deadlineAt 1000
    WaitsHousePizzaDelivery := fun _ => false
    GetDistanceToDestination := fun p => p.X
    GetCharacterMaxSpeed := 1
    GetPizzaAmount := 1
    TryGrabPizza := false
    TryDeliverPizza := fun _ => true }

/-- Like `wDeliver` but with order id 8 and house 60 units away. -/
def wDeliverB : World :=
  { wDeliver with
    GetPizzaOrders := [⟨8, 0⟩]
    GetHouseLocations := houseAt 60 }

/-! ## Claim C3 -/

/-- C3 (amended): in every reachable state the active order is set (`CurrentOrderNumber
≠ -1`) exactly when the delivery phase is EnRoute (`bDeliveringOrder`), and while
EnRoute the destination has been assigned.  The original claim's further biconditional
"destination set iff EnRoute" fails: the code never clears `CurrentDestination`, so it
stays assigned after the phase returns to Idle (see the counterexample). -/
theorem C3_order_phase_invariant (s : AgentState) (h : ReachableW OrdersNonneg s) :
    ((s.bDeliveringOrder = true) ↔ s.CurrentOrderNumber ≠ -1)
    ∧ (s.bDeliveringOrder = true → s.CurrentDestination.isSome = true) := by
  induction h with
  | init => constructor <;> simp [initState]
  | step hr hP ht ih =>
    rcases Tick_shapes ht with h1 | ⟨st, h2⟩ | ⟨o, st, hl, ho, h3⟩ | ⟨st, h4⟩
    · subst h1; exact ih
    · subst h2; simpa using ih
    · subst h3
      have hnn := hP o ho
      refine ⟨⟨fun _ => ?_, fun _ => rfl⟩, fun _ => rfl⟩
      show o.OrderNumber ≠ -1
      omega
    · subst h4
      constructor
      · simp
      · intro hc; exact absurd hc (by simp)

/-- Witness for C3: the invariant instantiated at the reachable constructor state. -/
theorem C3_order_phase_invariant_witness :
    ((initState.bDeliveringOrder = true) ↔ initState.CurrentOrderNumber ≠ -1)
    ∧ (initState.bDeliveringOrder = true → initState.CurrentDestination.isSome = true) :=
  C3_order_phase_invariant initState ReachableW.init

/-- Counterexample for C3 as stated: a two-tick run (select-and-commit, then successful
delivery) reaches an Idle state whose `CurrentDestination` is still assigned, so
"destination is set" does not imply "phase is EnRoute". -/
theorem C3_counterexample :
    OrdersNonneg wDeliverB
    ∧ Tick wDeliverB initState
        = some (⟨true, 8, 0, some ⟨60, 0, 0⟩⟩, [FacadeCall.moveToward ⟨60, 0, 0⟩])
    ∧ Tick wDeliverB ⟨true, 8, 0, some ⟨60, 0, 0⟩⟩
        = some (⟨false, -1, 0, some ⟨60, 0, 0⟩⟩, [FacadeCall.tryDeliver 8])
    ∧ (⟨false, -1, 0, some ⟨60, 0, 0⟩⟩ : AgentState).bDeliveringOrder = false
    ∧ (⟨false, -1, 0, some ⟨60, 0, 0⟩⟩ : AgentState).CurrentDestination ≠ none := by
  refine ⟨?_, ?_, ?_, rfl, by simp⟩
  · intro o ho; simp [wDeliverB, wDeliver] at ho; subst ho; norm_num
  · norm_num [Tick, idleTick, idleSelect, lookupAll, distToHouse, scanMin, loopMin,
      initState, wDeliverB, wDeliver, houseAt, deadlineAt]
  · norm_num [Tick, enRouteTick, anyCoLocated, wDeliverB, wDeliver, houseAt]

/-! ## Claim C7 -/

/-- C7 (amended): every single `Tick` invocation performs at most one decision cycle and
issues at most two Action Facade calls; the second call is only ever the
`moveToward` issued after a failed `tryDeliver`, or the `moveToward` that follows the
pickup in a committing Idle tick.  The original bound of one call fails on the
delivery-failure path (see the counterexample). -/
theorem C7_at_most_two_calls (w : World) (s s' : AgentState) (acts : List FacadeCall)
    (h : Tick w s = some (s', acts)) : acts.length ≤ 2 := by
  unfold Tick at h
  split at h
  · unfold enRouteTick at h
    split at h
    · exact absurd h (by simp)
    · split at h
      · injection h with h
        injection h with hs ha
        rw [← ha]
        simp
      · split at h
        · split at h
          · exact absurd h (by simp)
          · injection h with h
            injection h with hs ha
            rw [← ha]
            simp
        · injection h with h
          injection h with hs ha
          rw [← ha]
          simp
  · unfold idleTick at h
    split at h
    · injection h with h
      injection h with hs ha
      rw [← ha]
      simp
    · split at h
      · exact absurd h (by simp)
      · split at h
        · injection h with h
          injection h with hs ha
          rw [← ha]
          simp
        · split at h
          · exact absurd h (by simp)
          · injection h with h
            injection h with hs ha
            rw [← ha]
            by_cases hamt : w.GetPizzaAmount = 0
            · simp [hamt]
            · simp [hamt]

/-- Witness for C7: the bound applied to a concrete failed-delivery tick. -/
theorem C7_at_most_two_calls_witness :
    ([FacadeCall.tryDeliver 7, FacadeCall.moveToward ⟨100, 0, 0⟩] : List FacadeCall).length ≤ 2 :=
  C7_at_most_two_calls wNear ⟨true, 7, 1, some ⟨100, 0, 0⟩⟩ ⟨true, 7, 2, some ⟨100, 0, 0⟩⟩
    [FacadeCall.tryDeliver 7, FacadeCall.moveToward ⟨100, 0, 0⟩]
    (by norm_num [Tick, enRouteTick, wNear, wFlagAbort])

/-- Counterexample for C7 as stated: a reachable failed-delivery tick issues two Action
Facade calls (`tryDeliver` then `moveToward`), not at most one. -/
theorem C7_counterexample :
    OrdersNonneg wNear
    ∧ Tick wNear initState
        = some (⟨true, 7, 1, some ⟨100, 0, 0⟩⟩, [FacadeCall.moveToward ⟨100, 0, 0⟩])
    ∧ Tick wNear ⟨true, 7, 1, some ⟨100, 0, 0⟩⟩
        = some (⟨true, 7, 2, some ⟨100, 0, 0⟩⟩,
            [FacadeCall.tryDeliver 7, FacadeCall.moveToward ⟨100, 0, 0⟩])
    ∧ ¬ ([FacadeCall.tryDeliver 7, FacadeCall.moveToward ⟨100, 0, 0⟩] : List FacadeCall).length ≤ 1 := by
  refine ⟨?_, ?_, ?_, by simp⟩
  · intro o ho; simp [wNear, wFlagAbort] at ho; subst ho; norm_num
  · norm_num [Tick, idleTick, idleSelect, lookupAll, distToHouse, scanMin, loopMin,
      initState, wNear, wFlagAbort, houseAt, deadlineAt]
  · norm_num [Tick, enRouteTick, wNear, wFlagAbort]

/-! ## Claim C5 -/

/-- C5 (amended): on an EnRoute tick with measured distance strictly below 300 and
urgency Flagged (`terribleStatus = 1`), the urgency is promoted to Committed
(`terribleStatus = 2`); the promotion is visible in the post-state of a
failed-delivery tick.  At distance exactly 300 the delivery is attempted but the
promotion does not fire (see the counterexample). -/
theorem C5_proximity_promotion (w : World) (s : AgentState) (dest : FVector)
    (hb : s.bDeliveringOrder = true) (hd : s.CurrentDestination = some dest)
    (hnear : w.GetDistanceToDestination dest < 300)
    (hflag : s.terribleStatus = 1)
    (hfail : w.TryDeliverPizza s.CurrentOrderNumber = false) :
    Tick w s = some ({ s with terribleStatus := 2 },
      [FacadeCall.tryDeliver s.CurrentOrderNumber, FacadeCall.moveToward dest]) := by
  simp only [Tick, enRouteTick, hb, hd]
  rw [if_neg (not_lt.mpr (le_of_lt hnear)), hfail]
  simp only [Bool.false_eq_true, if_false]
  rw [if_pos (And.intro hflag hnear)]
  simp

/-- Witness for C5: promotion observed on the concrete near-house failed delivery. -/
theorem C5_proximity_promotion_witness :
    Tick wNear ⟨true, 7, 1, some ⟨100, 0, 0⟩⟩
      = some (⟨true, 7, 2, some ⟨100, 0, 0⟩⟩,
          [FacadeCall.tryDeliver 7, FacadeCall.moveToward ⟨100, 0, 0⟩]) :=
  C5_proximity_promotion wNear ⟨true, 7, 1, some ⟨100, 0, 0⟩⟩ ⟨100, 0, 0⟩ rfl rfl
    (by norm_num [wNear, wFlagAbort]) rfl rfl

/-- Counterexample for C5 as stated: the claim includes the boundary case
`distance = 300` exactly, but the code's promotion guard is `Distance < 300.0f`
(strict), so a reachable Flagged EnRoute tick at distance exactly 300 attempts the
delivery without promoting, and urgency stays Flagged. -/
theorem C5_counterexample :
    OrdersNonneg wBoundary
    ∧ Tick wBoundary initState
        = some (⟨true, 7, 1, some ⟨300, 0, 0⟩⟩, [FacadeCall.moveToward ⟨300, 0, 0⟩])
    ∧ Tick wBoundary ⟨true, 7, 1, some ⟨300, 0, 0⟩⟩
        = some (⟨true, 7, 1, some ⟨300, 0, 0⟩⟩,
            [FacadeCall.tryDeliver 7, FacadeCall.moveToward ⟨300, 0, 0⟩])
    ∧ (⟨true, 7, 1, some ⟨300, 0, 0⟩⟩ : AgentState).terribleStatus ≠ 2 := by
  refine ⟨?_, ?_, ?_, by simp⟩
  · intro o ho; simp [wBoundary, wFlagAbort] at ho; subst ho; norm_num
  · norm_num [Tick, idleTick, idleSelect, lookupAll, distToHouse, scanMin, loopMin,
      initState, wBoundary, wFlagAbort, houseAt, deadlineAt]
  · norm_num [Tick, enRouteTick, wBoundary, wFlagAbort, houseAt]

/-! ## Claim C9 -/

/-- C9 (amended): on an EnRoute tick with measured distance at most 300 where
`tryDeliver` fails, the scheduler reissues `moveToward(destination)`, the phase stays
EnRoute and the active order and destination are unchanged; the urgency level is also
unchanged UNLESS it was Flagged and the distance is strictly below 300, in which case
the pre-delivery promotion leaves it Committed (see the counterexample to the original
"otherwise unchanged" wording). -/
theorem C9_retry_on_failure (w : World) (s : AgentState) (dest : FVector)
    (hb : s.bDeliveringOrder = true) (hd : s.CurrentDestination = some dest)
    (hnear : w.GetDistanceToDestination dest ≤ 300)
    (hfail : w.TryDeliverPizza s.CurrentOrderNumber = false) :
    Tick w s = some ({ s with terribleStatus :=
        if s.terribleStatus = 1 ∧ w.GetDistanceToDestination dest < 300 then 2
        else s.terribleStatus },
      [FacadeCall.tryDeliver s.CurrentOrderNumber, FacadeCall.moveToward dest]) := by
  simp only [Tick, enRouteTick, hb, hd]
  rw [if_neg (not_lt.mpr hnear), hfail]
  simp

/-- Witness for C9: the retry applied to a Normal-urgency failed delivery, the state
coming out unchanged apart from nothing at all. -/
theorem C9_retry_on_failure_witness :
    Tick wNear ⟨true, 7, 0, some ⟨100, 0, 0⟩⟩
      = some (⟨true, 7, (if (0:Int) = 1 ∧ (100:ℚ) < 300 then 2 else 0), some ⟨100, 0, 0⟩⟩,
          [FacadeCall.tryDeliver 7, FacadeCall.moveToward ⟨100, 0, 0⟩]) :=
  C9_retry_on_failure wNear ⟨true, 7, 0, some ⟨100, 0, 0⟩⟩ ⟨100, 0, 0⟩ rfl rfl
    (by norm_num [wNear, wFlagAbort]) rfl

/-- Counterexample for C9 as stated: on a reachable Flagged EnRoute tick at distance
100 with `tryDeliver` failing, the urgency level changes from Flagged to Committed, so
the AgentState is not "otherwise unchanged". -/
theorem C9_counterexample :
    OrdersNonneg wNear
    ∧ Tick wNear initState
        = some (⟨true, 7, 1, some ⟨100, 0, 0⟩⟩, [FacadeCall.moveToward ⟨100, 0, 0⟩])
    ∧ Tick wNear ⟨true, 7, 1, some ⟨100, 0, 0⟩⟩
        = some (⟨true, 7, 2, some ⟨100, 0, 0⟩⟩,
            [FacadeCall.tryDeliver 7, FacadeCall.moveToward ⟨100, 0, 0⟩])
    ∧ (⟨true, 7, 2, some ⟨100, 0, 0⟩⟩ : AgentState).terribleStatus
        ≠ (⟨true, 7, 1, some ⟨100, 0, 0⟩⟩ : AgentState).terribleStatus := by
  refine ⟨?_, ?_, ?_, by simp⟩
  · intro o ho; simp [wNear, wFlagAbort] at ho; subst ho; norm_num
  · norm_num [Tick, idleTick, idleSelect, lookupAll, distToHouse, scanMin, loopMin,
      initState, wNear, wFlagAbort, houseAt, deadlineAt]
  · norm_num [Tick, enRouteTick, wNear, wFlagAbort, houseAt]

/-! ## Claim C6 -/

/-- C6 (amended): on the EnRoute tick where `tryDeliver` succeeds and the re-scan finds
no still-pending order at the identical measured distance, the state clears to Idle:
`bDeliveringOrder = false`, `CurrentOrderNumber = -1`, `terribleStatus = Normal (0)`.
`CurrentDestination`, however, is NOT unset: the code never clears it, so it retains
the completed delivery's location (see the counterexample to the original claim's
"destination unset"). -/
theorem C6_success_clears_state (w : World) (s : AgentState) (dest : FVector)
    (hb : s.bDeliveringOrder = true) (hd : s.CurrentDestination = some dest)
    (hnear : w.GetDistanceToDestination dest ≤ 300)
    (hok : w.TryDeliverPizza s.CurrentOrderNumber = true)
    (hno : anyCoLocated w (w.GetDistanceToDestination dest) w.GetPizzaOrdersPost
        = some false) :
    Tick w s = some ({ bDeliveringOrder := false, CurrentOrderNumber := -1,
                       terribleStatus := 0, CurrentDestination := s.CurrentDestination },
      [FacadeCall.tryDeliver s.CurrentOrderNumber]) := by
  simp only [Tick, enRouteTick, hb, hd]
  rw [if_neg (not_lt.mpr hnear), hok]
  simp only [if_true, hno]
  simp

/-- Witness for C6: the concrete successful delivery 50 units out with an empty
re-scan list clears to Idle. -/
theorem C6_success_clears_state_witness :
    Tick wDeliver ⟨true, 7, 0, some ⟨50, 0, 0⟩⟩
      = some (⟨false, -1, 0, some ⟨50, 0, 0⟩⟩, [FacadeCall.tryDeliver 7]) :=
  C6_success_clears_state wDeliver ⟨true, 7, 0, some ⟨50, 0, 0⟩⟩ ⟨50, 0, 0⟩ rfl rfl
    (by norm_num [wDeliver, houseAt]) rfl rfl

/-- Counterexample for C6 as stated: after the successful delivery the reachable
post-state keeps `CurrentDestination = some (50,0,0)`; the destination is not unset. -/
theorem C6_counterexample :
    OrdersNonneg wDeliver
    ∧ Tick wDeliver initState
        = some (⟨true, 7, 0, some ⟨50, 0, 0⟩⟩, [FacadeCall.moveToward ⟨50, 0, 0⟩])
    ∧ Tick wDeliver ⟨true, 7, 0, some ⟨50, 0, 0⟩⟩
        = some (⟨false, -1, 0, some ⟨50, 0, 0⟩⟩, [FacadeCall.tryDeliver 7])
    ∧ (⟨false, -1, 0, some ⟨50, 0, 0⟩⟩ : AgentState).CurrentDestination ≠ none := by
  refine ⟨?_, ?_, ?_, by simp⟩
  · intro o ho; simp [wDeliver] at ho; subst ho; norm_num
  · norm_num [Tick, idleTick, idleSelect, lookupAll, distToHouse, scanMin, loopMin,
      initState, wDeliver, houseAt, deadlineAt]
  · norm_num [Tick, enRouteTick, anyCoLocated, wDeliver, houseAt]

/-! ## Claim C4 -/

/-- C4 (confirmed): on the EnRoute tick where `tryDeliver` succeeds, the scheduler
clears to Idle and re-scans the post-delivery pending orders: the urgency comes out
Committed (2) exactly when some still-awaiting order's house sits at the identical
distance measured at the start of the tick, and Normal (0) otherwise. -/
theorem C4_post_success_rescan (w : World) (s : AgentState) (dest : FVector) (b : Bool)
    (hb : s.bDeliveringOrder = true) (hd : s.CurrentDestination = some dest)
    (hnear : w.GetDistanceToDestination dest ≤ 300)
    (hok : w.TryDeliverPizza s.CurrentOrderNumber = true)
    (hscan : anyCoLocated w (w.GetDistanceToDestination dest) w.GetPizzaOrdersPost
        = some b) :
    ∃ s' : AgentState,
      Tick w s = some (s', [FacadeCall.tryDeliver s.CurrentOrderNumber])
      ∧ s'.bDeliveringOrder = false
      ∧ (s'.terribleStatus = 2 ↔ ∃ o ∈ w.GetPizzaOrdersPost,
          w.WaitsHousePizzaDelivery o.HouseNumber = true ∧
          distToHouse w o.HouseNumber = some (w.GetDistanceToDestination dest))
      ∧ (s'.terribleStatus = 0 ∨ s'.terribleStatus = 2) := by
  refine ⟨{ bDeliveringOrder := false, CurrentOrderNumber := -1,
            terribleStatus := (if b then 2 else 0),
            CurrentDestination := s.CurrentDestination },
    ?_, rfl, ?_, ?_⟩
  · simp only [Tick, enRouteTick, hb, hd]
    rw [if_neg (not_lt.mpr hnear), hok]
    simp only [if_true, hscan]
  · rw [← anyCoLocated_true_iff w (w.GetDistanceToDestination dest) w.GetPizzaOrdersPost b hscan]
    cases b <;> simp
  · cases b <;> simp

/-- Witness world for C4: after delivering at distance 50, one co-located order for a
second house at the same 50-unit distance is still pending and awaiting delivery. -/
def wRescan : World :=
  { GetPizzaOrders := [⟨7, 0⟩]
    GetPizzaOrdersPost := [⟨9, 1⟩]
    GetHouseLocations := fun h =>
      if h = 0 then some ⟨50, 0, 0⟩ else if h = 1 then some ⟨50, 5, 0⟩ else none
    GetHouseTimeLeft := deadlineAt 1000
    WaitsHousePizzaDelivery := fun h => h = 1
    GetDistanceToDestination := fun p => p.X
    GetCharacterMaxSpeed := 1
    GetPizzaAmount := 1
    TryGrabPizza := false
    TryDeliverPizza := fun _ => true }

/-- Witness for C4: with the co-located awaiting order present, the re-scan recommits
the urgency to Committed. -/
theorem C4_post_success_rescan_witness :
    ∃ s' : AgentState,
      Tick wRescan ⟨true, 7, 0, some ⟨50, 0, 0⟩⟩
          = some (s', [FacadeCall.tryDeliver 7])
      ∧ s'.bDeliveringOrder = false
      ∧ (s'.terribleStatus = 2 ↔ ∃ o ∈ wRescan.GetPizzaOrdersPost,
          wRescan.WaitsHousePizzaDelivery o.HouseNumber = true ∧
          distToHouse wRescan o.HouseNumber
            = some (wRescan.GetDistanceToDestination ⟨50, 0, 0⟩))
      ∧ (s'.terribleStatus = 0 ∨ s'.terribleStatus = 2) :=
  C4_post_success_rescan wRescan ⟨true, 7, 0, some ⟨50, 0, 0⟩⟩ ⟨50, 0, 0⟩ true rfl rfl
    (by norm_num [wRescan]) rfl
    (by norm_num [anyCoLocated, distToHouse, wRescan])

/-! ## Claim C2 -/

/-- C2 (amended): the urgency level is NOT confined to EnRoute.  When the Idle-tick
job selection comes out Flagged (status 1) and the cargo pickup fails, the tick aborts
the transition: the state stays Idle but keeps the Flagged urgency, contradicting the
original invariant "urgency is Normal whenever the phase is Idle" (see the
counterexample; the post-delivery re-scan can likewise leave Committed in Idle). -/
theorem C2_flag_survives_abort (w : World) (s : AgentState) (o : Order)
    (hb : s.bDeliveringOrder = false)
    (hne : w.GetPizzaOrders.isEmpty = false)
    (hsel : idleSelect w s.terribleStatus = some (o, 1))
    (hamt : w.GetPizzaAmount = 0) (hgrab : w.TryGrabPizza = false) :
    Tick w s = some ({ s with terribleStatus := 1 }, [FacadeCall.tryPickup])
    ∧ ({ s with terribleStatus := 1 } : AgentState).bDeliveringOrder = false := by
  constructor
  · simp only [Tick, idleTick, hb, hne, hsel]
    simp [hamt, hgrab]
  · simpa using hb

/-- Witness for C2: the abort applied to the concrete burning-order world with failed
pickup. -/
theorem C2_flag_survives_abort_witness :
    Tick wFlagAbort initState
      = some ({ initState with terribleStatus := 1 }, [FacadeCall.tryPickup])
    ∧ ({ initState with terribleStatus := 1 } : AgentState).bDeliveringOrder = false :=
  C2_flag_survives_abort wFlagAbort initState ⟨7, 0⟩ rfl rfl
    (by norm_num [idleSelect, lookupAll, distToHouse, scanMin, loopMin, wFlagAbort,
      houseAt, deadlineAt, initState])
    rfl rfl

/-- Counterexample for C2 as stated: one reachable tick from the constructor state
(escalation fires, pickup fails) ends Idle with urgency Flagged, not Normal. -/
theorem C2_counterexample :
    OrdersNonneg wFlagAbort
    ∧ Tick wFlagAbort initState = some (⟨false, -1, 1, none⟩, [FacadeCall.tryPickup])
    ∧ (⟨false, -1, 1, none⟩ : AgentState).bDeliveringOrder = false
    ∧ (⟨false, -1, 1, none⟩ : AgentState).terribleStatus ≠ 0 := by
  refine ⟨?_, ?_, rfl, by simp⟩
  · intro o ho; simp [wFlagAbort] at ho; subst ho; norm_num
  · norm_num [Tick, idleTick, idleSelect, lookupAll, distToHouse, scanMin, loopMin,
      initState, wFlagAbort, houseAt, deadlineAt]

/-! ## Claim C1 -/

/-- C1 (amended): on an Idle-phase selection with `dists`/`times` the per-order house
distances and remaining deadlines, `terribleOrd` the order at the scan-selected
most-urgent index and `closestOrd` the order at the scan-selected closest index
(`burnestTime = (scanMin times).2` being the minimal remaining deadline, and
`(scanMin dists).2` the minimal distance, as the first two conjuncts state): when
`burnestTime - dist(terribleOrd)/maxSpeed < 5` and the current urgency is not
Committed (2), the scheduler selects `terribleOrd` and sets urgency Flagged (1);
otherwise it selects `closestOrd` and leaves the urgency level UNCHANGED — it is
Normal after the tick only if it was Normal before (the original "leaves it at
Normal" fails on a retained flag, see the counterexample). -/
theorem C1_escalation_policy (w : World) (st : Int) (dists times : List ℚ)
    (hd : lookupAll (fun o => distToHouse w o.HouseNumber) w.GetPizzaOrders = some dists)
    (ht : lookupAll (fun o => w.GetHouseTimeLeft o.HouseNumber) w.GetPizzaOrders
        = some times)
    (closestOrd terribleOrd : Order) (du : ℚ)
    (hc : w.GetPizzaOrders.get? (scanMin dists).1 = some closestOrd)
    (hu : w.GetPizzaOrders.get? (scanMin times).1 = some terribleOrd)
    (hdu : dists.get? (scanMin times).1 = some du) :
    (∀ j u, times.get? j = some u → (scanMin times).2 ≤ u)
    ∧ (∀ j u, dists.get? j = some u → (scanMin dists).2 ≤ u)
    ∧ ((scanMin times).2 - du / w.GetCharacterMaxSpeed < 5 ∧ st ≠ 2 →
        idleSelect w st = some (terribleOrd, 1))
    ∧ (¬ ((scanMin times).2 - du / w.GetCharacterMaxSpeed < 5 ∧ st ≠ 2) →
        idleSelect w st = some (closestOrd, st)) := by
  cases times with
  | nil =>
    exfalso
    have hlent := lookupAll_length (fun o => w.GetHouseTimeLeft o.HouseNumber)
      w.GetPizzaOrders [] ht
    have hord : w.GetPizzaOrders = [] := List.length_eq_zero.mp (by simpa using hlent.symm)
    rw [hord] at hc
    simp at hc
  | cons t0 ts =>
    cases dists with
    | nil => exfalso; simp at hdu
    | cons d0 ds =>
      refine ⟨(scanMin_spec t0 ts).2.1, (scanMin_spec d0 ds).2.1, ?_, ?_⟩
      · intro hcond
        simp only [idleSelect, hd, ht, hc, hu, hdu]
        rw [if_pos hcond]
      · intro hcond
        simp only [idleSelect, hd, ht, hc, hu, hdu]
        rw [if_neg hcond]

/-- Witness for C1: the escalation branch applied to the concrete burning-order
world, selecting the most-urgent order with urgency Flagged. -/
theorem C1_escalation_policy_witness :
    idleSelect wFlagAbort 0 = some (⟨7, 0⟩, 1) :=
  (C1_escalation_policy wFlagAbort 0 [100] [1] rfl rfl ⟨7, 0⟩ ⟨7, 0⟩ 100
    rfl rfl rfl).2.2.1
    (by constructor
        · norm_num [scanMin, loopMin, wFlagAbort]
        · norm_num)

/-- Counterexample for C1 as stated: after an aborted Flagged tick, a relaxed-deadline
tick takes the "otherwise" branch — it selects the closest order but the urgency level
stays Flagged (1) instead of being left at Normal (0). -/
theorem C1_counterexample :
    OrdersNonneg wFlagAbort ∧ OrdersNonneg wRelaxed
    ∧ Tick wFlagAbort initState = some (⟨false, -1, 1, none⟩, [FacadeCall.tryPickup])
    ∧ Tick wRelaxed ⟨false, -1, 1, none⟩
        = some (⟨true, 7, 1, some ⟨100, 0, 0⟩⟩, [FacadeCall.moveToward ⟨100, 0, 0⟩])
    ∧ (⟨true, 7, 1, some ⟨100, 0, 0⟩⟩ : AgentState).terribleStatus ≠ 0 := by
  refine ⟨?_, ?_, ?_, ?_, by simp⟩
  · intro o ho; simp [wFlagAbort] at ho; subst ho; norm_num
  · intro o ho; simp [wRelaxed, wFlagAbort] at ho; subst ho; norm_num
  · norm_num [Tick, idleTick, idleSelect, lookupAll, distToHouse, scanMin, loopMin,
      initState, wFlagAbort, houseAt, deadlineAt]
  · norm_num [Tick, idleTick, idleSelect, lookupAll, distToHouse, scanMin, loopMin,
      wRelaxed, wFlagAbort, houseAt, deadlineAt]

/-! ## Claim C8 -/

/-- `scanMin` returns exactly the first index attaining the minimum: if index `i`
holds a minimal value `m` and every entry before `i` is strictly larger, the scan
selects `i`. -/
theorem scanMin_first_argmin (v0 : ℚ) (vs : List ℚ) (i : Nat) (m : ℚ)
    (hi : (v0 :: vs).get? i = some m)
    (hmin : ∀ u ∈ v0 :: vs, m ≤ u)
    (hfirst : ∀ u ∈ (v0 :: vs).take i, m < u) :
    (scanMin (v0 :: vs)).1 = i ∧ (scanMin (v0 :: vs)).2 = m := by
  obtain ⟨hr1, hr2, hr3⟩ := scanMin_spec v0 vs
  have h1 : m ≤ (scanMin (v0 :: vs)).2 := hmin _ (List.get?_mem hr1)
  have h2 : (scanMin (v0 :: vs)).2 ≤ m := hr2 i m hi
  have heq : (scanMin (v0 :: vs)).2 = m := le_antisymm h2 h1
  refine ⟨?_, heq⟩
  rcases Nat.lt_trichotomy (scanMin (v0 :: vs)).1 i with hlt | heqi | hgt
  · exfalso
    have htk : ((v0 :: vs).take i).get? (scanMin (v0 :: vs)).1
        = some (scanMin (v0 :: vs)).2 := by
      rw [List.get?_take hlt]
      exact hr1
    have := hfirst _ (List.get?_mem htk)
    rw [heq] at this
    exact absurd this (lt_irrefl m)
  · exact heqi
  · exfalso
    have := hr3 i m hgt hi
    rw [heq] at this
    exact absurd this (lt_irrefl m)

/-- C8 (confirmed): in the Idle-phase selection scans over the pending orders, when
two indices `i < j` carry the identical minimal distance (respectively the identical
minimal remaining deadline), and `i` is the first index attaining that value, the
closest-order scan (respectively the most-urgent scan) selects index `i` — the order
occurring earlier in the pending sequence.  Both loops update only on a strict
decrease, so the first occurrence of the minimum always wins. -/
theorem C8_tie_break (w : World) (dists times : List ℚ)
    (hd : lookupAll (fun o => distToHouse w o.HouseNumber) w.GetPizzaOrders = some dists)
    (ht : lookupAll (fun o => w.GetHouseTimeLeft o.HouseNumber) w.GetPizzaOrders
        = some times)
    (i j : Nat) (m : ℚ) (hij : i < j)
    (hi : dists.get? i = some m) (hj : dists.get? j = some m)
    (hmin : ∀ u ∈ dists, m ≤ u) (hfirst : ∀ u ∈ dists.take i, m < u)
    (i2 j2 : Nat) (m2 : ℚ) (hij2 : i2 < j2)
    (hi2 : times.get? i2 = some m2) (hj2 : times.get? j2 = some m2)
    (hmin2 : ∀ u ∈ times, m2 ≤ u) (hfirst2 : ∀ u ∈ times.take i2, m2 < u) :
    (scanMin dists).1 = i ∧ (scanMin times).1 = i2 := by
  cases dists with
  | nil => exact absurd hi (by simp)
  | cons d0 ds =>
    cases times with
    | nil => exact absurd hi2 (by simp)
    | cons t0 ts =>
      exact ⟨(scanMin_first_argmin d0 ds i m hi hmin hfirst).1,
             (scanMin_first_argmin t0 ts i2 m2 hi2 hmin2 hfirst2).1⟩

/-- Witness world for C8: three orders whose houses sit at distances 7, 3, 3 with
deadlines 9, 4, 4 — ties at indices 1 and 2 in both scans. -/
def wTie : World :=
  { GetPizzaOrders := [⟨5, 0⟩, ⟨6, 1⟩, ⟨7, 2⟩]
    GetPizzaOrdersPost := []
    GetHouseLocations := fun h =>
      if h = 0 then some ⟨7, 0, 0⟩ else if h = 1 then some ⟨3, 1, 0⟩
      else if h = 2 then some ⟨3, 2, 0⟩ else none
    GetHouseTimeLeft := fun h =>
      if h = 0 then some 9 else if h = 1 then some 4
      else if h = 2 then some 4 else none
    WaitsHousePizzaDelivery := fun _ => false
    GetDistanceToDestination := fun p => p.X
    GetCharacterMaxSpeed := 1
    GetPizzaAmount := 1
    TryGrabPizza := false
    TryDeliverPizza := fun _ => false }

/-- Witness for C8: both scans select index 1, the earlier of the two tied orders. -/
theorem C8_tie_break_witness :
    (scanMin [(7 : ℚ), 3, 3]).1 = 1 ∧ (scanMin [(9 : ℚ), 4, 4]).1 = 1 :=
  C8_tie_break wTie [7, 3, 3] [9, 4, 4] rfl rfl
    1 2 3 (by omega) rfl rfl (by decide) (by decide)
    1 2 4 (by omega) rfl rfl (by decide) (by decide)

/-! ## Claim C10 -/

/-- The distance-to-house lookup is defined whenever the house-location table lookup
is. -/
theorem distToHouse_isSome (w : World) (h : Nat)
    (hh : (w.GetHouseLocations h).isSome = true) : (distToHouse w h).isSome = true := by
  unfold distToHouse
  cases hg : w.GetHouseLocations h with
  | none => rw [hg] at hh; simp at hh
  | some p => simp

/-- With every pending order's house a valid key of the location and deadline tables,
the Idle-phase job selection never hits an error branch. -/
theorem idleSelect_isSome (w : World) (st : Int)
    (hne : w.GetPizzaOrders ≠ [])
    (horders : ∀ o ∈ w.GetPizzaOrders,
        (w.GetHouseLocations o.HouseNumber).isSome = true
        ∧ (w.GetHouseTimeLeft o.HouseNumber).isSome = true) :
    (idleSelect w st).isSome = true := by
  have hdS : (lookupAll (fun o => distToHouse w o.HouseNumber) w.GetPizzaOrders).isSome :=
    lookupAll_isSome _ _ (fun o ho => distToHouse_isSome w o.HouseNumber (horders o ho).1)
  have htS : (lookupAll (fun o => w.GetHouseTimeLeft o.HouseNumber) w.GetPizzaOrders).isSome :=
    lookupAll_isSome _ _ (fun o ho => (horders o ho).2)
  cases hdd : lookupAll (fun o => distToHouse w o.HouseNumber) w.GetPizzaOrders with
  | none => rw [hdd] at hdS; simp at hdS
  | some dists =>
    cases htt : lookupAll (fun o => w.GetHouseTimeLeft o.HouseNumber) w.GetPizzaOrders with
    | none => rw [htt] at htS; simp at htS
    | some times =>
      have hld := lookupAll_length _ _ _ hdd
      have hlt2 := lookupAll_length _ _ _ htt
      have hlen0 : 0 < w.GetPizzaOrders.length := List.length_pos.mpr hne
      have hdists : ∃ d0 ds, dists = d0 :: ds := by
        cases dists with
        | nil => exfalso; rw [← hld] at hlen0; simp at hlen0
        | cons d0 ds => exact ⟨d0, ds, rfl⟩
      have htimes : ∃ t0 ts, times = t0 :: ts := by
        cases times with
        | nil => exfalso; rw [← hlt2] at hlen0; simp at hlen0
        | cons t0 ts => exact ⟨t0, ts, rfl⟩
      obtain ⟨d0, ds, hds⟩ := hdists
      obtain ⟨t0, ts, hts⟩ := htimes
      have hcIdx : (scanMin dists).1 < w.GetPizzaOrders.length := by
        rw [← hld]
        subst hds
        exact get?_lt_length (scanMin_spec d0 ds).1
      have huIdx : (scanMin times).1 < w.GetPizzaOrders.length := by
        rw [← hlt2]
        subst hts
        exact get?_lt_length (scanMin_spec t0 ts).1
      have hduIdx : (scanMin times).1 < dists.length := by rw [hld]; exact huIdx
      obtain ⟨co, hco⟩ :=
        Option.isSome_iff_exists.mp (get?_isSome_of_lt w.GetPizzaOrders _ hcIdx)
      obtain ⟨uo, huo⟩ :=
        Option.isSome_iff_exists.mp (get?_isSome_of_lt w.GetPizzaOrders _ huIdx)
      obtain ⟨du, hdu⟩ := Option.isSome_iff_exists.mp (get?_isSome_of_lt dists _ hduIdx)
      simp only [idleSelect, hdd, htt, hco, huo, hdu]
      by_cases hcond : (scanMin times).2 - du / w.GetCharacterMaxSpeed < 5 ∧ st ≠ 2
      · rw [if_pos hcond]; rfl
      · rw [if_neg hcond]; rfl

/-- C10 (confirmed): under the precondition that every pending order (in the Idle-tick
list and in the post-delivery re-scan list) carries a house number that is a valid key
of the location table — and, for the Idle list, of the deadline table — and that an
EnRoute state has its destination assigned, every table lookup a `Tick` performs is in
bounds: the Option-returning embedding of the tick never returns `none`. -/
theorem C10_lookups_in_bounds (w : World) (s : AgentState)
    (hdest : s.bDeliveringOrder = true → s.CurrentDestination.isSome = true)
    (horders : ∀ o ∈ w.GetPizzaOrders,
        (w.GetHouseLocations o.HouseNumber).isSome = true
        ∧ (w.GetHouseTimeLeft o.HouseNumber).isSome = true)
    (hpost : ∀ o ∈ w.GetPizzaOrdersPost,
        (w.GetHouseLocations o.HouseNumber).isSome = true) :
    (Tick w s).isSome = true := by
  unfold Tick
  by_cases hb : s.bDeliveringOrder = true
  · rw [if_pos hb]
    unfold enRouteTick
    cases hcd : s.CurrentDestination with
    | none =>
      have hds := hdest hb
      rw [hcd] at hds
      simp at hds
    | some dest =>
      dsimp only
      by_cases hfar : 300 < w.GetDistanceToDestination dest
      · rw [if_pos hfar]; rfl
      · rw [if_neg hfar]
        by_cases hdel : w.TryDeliverPizza s.CurrentOrderNumber = true
        · rw [if_pos hdel]
          have hsc := anyCoLocated_isSome w (w.GetDistanceToDestination dest)
            w.GetPizzaOrdersPost (fun o ho _ => hpost o ho)
          cases hsc2 : anyCoLocated w (w.GetDistanceToDestination dest)
              w.GetPizzaOrdersPost with
          | none => rw [hsc2] at hsc; simp at hsc
          | some found => rfl
        · rw [if_neg hdel]; rfl
  · rw [if_neg hb]
    unfold idleTick
    by_cases hemp : w.GetPizzaOrders.isEmpty = true
    · rw [if_pos hemp]; rfl
    · rw [if_neg hemp]
      have hne : w.GetPizzaOrders ≠ [] := by
        intro hcon
        rw [hcon] at hemp
        exact hemp rfl
      have hselS := idleSelect_isSome w s.terribleStatus hne horders
      cases hs : idleSelect w s.terribleStatus with
      | none => rw [hs] at hselS; simp at hselS
      | some pr =>
        obtain ⟨o, st'⟩ := pr
        dsimp only
        by_cases habort : w.GetPizzaAmount = 0 ∧ w.TryGrabPizza = false
        · rw [if_pos habort]; rfl
        · rw [if_neg habort]
          have ho := idleSelect_mem w s.terribleStatus o st' hs
          have hloc := (horders o ho).1
          cases hlo : w.GetHouseLocations o.HouseNumber with
          | none => rw [hlo] at hloc; simp at hloc
          | some hl => rfl

/-- Witness for C10: the tick on the concrete deliverable world from the constructor
state is defined. -/
theorem C10_lookups_in_bounds_witness : (Tick wDeliver initState).isSome = true :=
  C10_lookups_in_bounds wDeliver initState
    (by intro h; exact absurd h (by simp [initState]))
    (by
      intro o ho
      simp [wDeliver] at ho
      subst ho
      exact ⟨rfl, rfl⟩)
    (by intro o ho; simp [wDeliver] at ho)
